import Mathlib

/-!
Verification of the eBay listing crawler (`ebay-crawler.go`) against its
natural-language specification.

The program crawls a paginated listing site, extracts one record per item
from the parsed HTML tree and persists it.  The embedding below mirrors the
Go source:

* `golang.org/x/net/html` represents a parsed document as nodes carrying a
  `Type`, a `Data` string (tag name for elements, text for text nodes), an
  attribute list, and `FirstChild` / `NextSibling` pointers.  `HtmlNode`
  reproduces exactly that pointer structure (`nil` is the nil pointer), so
  every traversal loop of the source becomes structural recursion here.
* Effects (HTTP fetch, `os.WriteFile`, `os.Mkdir`, `fmt.Printf`) are made
  explicit: fetching+parsing is an environment function
  `String → Except String HtmlNode`, writes and printed lines are returned
  as data, and the results of `os.WriteFile` / `os.Mkdir` are supplied as
  parameters (the source discards both).
-/

/-- Node kinds of `golang.org/x/net/html` (`html.NodeType`). -/
inductive NodeKind where
  | err
  | text
  | document
  | element
  | comment
  | doctype
  deriving DecidableEq, Repr

/-- One `html.Attribute` (the namespace field is never used by the crawler). -/
structure HAttr where
  key : String
  val : String
  deriving DecidableEq, Repr

/-- A parsed markup node in the pointer representation of
`golang.org/x/net/html`: kind, data, attributes, first child, next sibling.
`nil` stands for the nil `*html.Node` pointer. -/
inductive HtmlNode where
  | nil
  | mk (kind : NodeKind) (data : String) (attrs : List HAttr)
       (firstChild : HtmlNode) (nextSibling : HtmlNode)
  deriving DecidableEq, Repr

/-- Decide whether `sub` is a leading segment of `l` (`a == b` chaining). -/
def isLeading : List Char → List Char → Bool
  | [], _ => true
  | _ :: _, [] => false
  | a :: as, b :: bs => a == b && isLeading as bs

/-- Scan of `l` for an occurrence of `sub` at any position. -/
def subAt : List Char → List Char → Bool
  | sub, [] => isLeading sub []
  | sub, c :: rest => isLeading sub (c :: rest) || subAt sub rest

/-- Go's `strings.Contains(s, sub)`: `sub` occurs in `s` as a contiguous
substring.  (UTF-8 is self-synchronising, so the byte-level scan of the Go
runtime finds a match exactly when the character-level scan does.) -/
def strContains (s sub : String) : Bool := subAt sub.toList s.toList

/-- The attribute-scanning loop of `findItemElementsByClass` (source lines
128-140): walk the attribute list keeping the last seen matching `class`
value and the last seen non-empty `id` value; after each attribute, if both
accumulators are non-empty the node qualifies (the `break` only leaves the
attribute loop). -/
def scanAttrs (className : String) : List HAttr → String → String → Bool
  | [], _, _ => false
  | a :: rest, cl, id =>
    let cl2 := if a.key == "class" && strContains a.val className then a.val else cl
    let id2 := if !(a.key == "class" && strContains a.val className) &&
                  (a.key == "id" && a.val != "") then a.val else id
    if cl2 != "" && id2 != "" then true else scanAttrs className rest cl2 id2

/-- Children loop of `findItemElementsByClass` (source lines 143-145)
together with the body of the recursive call: for each node of a sibling
chain, test the node itself (lines 124-141) and then descend into its child
chain, threading the accumulator `itemList` exactly as the source does. -/
def findSiblingChain : HtmlNode → String → String → List HtmlNode → List HtmlNode
  | .nil, _, _, itemList => itemList
  | .mk k d attrs fc ns, elementType, className, itemList =>
    let itemList1 :=
      if (decide (k = NodeKind.element) && d == elementType) &&
          scanAttrs className attrs "" "" then
        itemList ++ [HtmlNode.mk k d attrs fc ns]
      else itemList
    findSiblingChain ns elementType className
      (findSiblingChain fc elementType className itemList1)

/-- Source `findItemElementsByClass` (lines 123-148): test the root node,
then run the children loop over its child chain.  The root's own siblings
are not visited (the source only follows `FirstChild` of the argument). -/
def findItemElementsByClass (node : HtmlNode) (elementType className : String)
    (itemList : List HtmlNode) : List HtmlNode :=
  match node with
  | .nil => itemList
  | .mk k d attrs fc ns =>
    let itemList1 :=
      if (decide (k = NodeKind.element) && d == elementType) &&
          scanAttrs className attrs "" "" then
        itemList ++ [HtmlNode.mk k d attrs fc ns]
      else itemList
    findSiblingChain fc elementType className itemList1

/-- Children loop of `findFirstElementByAttr` (source lines 163-170):
walk a sibling chain; only element nodes are recursed into (`c.Type ==
html.ElementNode` guard), and a found descendant is returned at once.  The
body of the recursive call (lines 154-161) is inlined for the chain node
itself: an element whose tag and attribute match is returned. -/
def findFirstChain : HtmlNode → String → String → String → Option HtmlNode
  | .nil, _, _, _ => none
  | .mk k d attrs fc ns, elementType, attrName, attrValue =>
    if decide (k = NodeKind.element) then
      if d == elementType &&
          attrs.any (fun a => a.key == attrName && strContains a.val attrValue) then
        some (HtmlNode.mk k d attrs fc ns)
      else
        match findFirstChain fc elementType attrName attrValue with
        | some found => some found
        | none => findFirstChain ns elementType attrName attrValue
    else findFirstChain ns elementType attrName attrValue

/-- Source `findFirstElementByAttr` (lines 151-173): the argument node is
tested first (whatever the caller passed), then its child chain is searched;
the argument's own siblings are not visited. -/
def findFirstElementByAttr (node : HtmlNode) (elementType attrName attrValue : String) :
    Option HtmlNode :=
  match node with
  | .nil => none
  | .mk k d attrs fc ns =>
    if decide (k = NodeKind.element) && d == elementType &&
        attrs.any (fun a => a.key == attrName && strContains a.val attrValue) then
      some (HtmlNode.mk k d attrs fc ns)
    else findFirstChain fc elementType attrName attrValue

/-- Children loop of `getElementNodeVal` (source lines 177-181): first
direct child of text kind, if any, yields its raw `Data`. -/
def firstTextInChain : HtmlNode → Option String
  | .nil => none
  | .mk k d _ _ ns => if decide (k = NodeKind.text) then some d else firstTextInChain ns

/-- Source `getElementNodeVal` (lines 176-184). -/
def getElementNodeVal (node : HtmlNode) : Except String String :=
  match node with
  | .nil => Except.error "ERROR::No text node found"
  | .mk _ _ _ fc _ =>
    match firstTextInChain fc with
    | some t => Except.ok t
    | none => Except.error "ERROR::No text node found"

/-- Source `getElementAttrByName` (lines 275-287). -/
def getElementAttrByName (node : HtmlNode) (attrName : String) : Except String String :=
  match node with
  | .nil => Except.error "ERROR::Node is not an element"
  | .mk k _ attrs _ _ =>
    if decide (k = NodeKind.element) then
      match attrs.find? (fun a => a.key == attrName) with
      | some a => Except.ok a.val
      | none => Except.error ("ERROR::Attribute " ++ attrName ++ " not found")
    else Except.error "ERROR::Node is not an element"

/-- Source constant `priceRegEx` (line 24). -/
def priceRegEx : String := "\\d+[\\.,]*\\d*"

/-- Source constant `itemIDRegEx` (line 25); note that `\\?` is an escaped
literal question mark, not an optional quantifier. -/
def itemIDRegEx : String := "itm\\/([0-9]+)\\?"

/-- Characters of the class `[\.,]` of `priceRegEx`. -/
def pricePunct (c : Char) : Bool := c == '.' || c == ','

/-- A match of `priceRegEx` anchored at the head of `l`, which Go's
leftmost-first semantics only attempts at a digit: `\d+` greedily takes the
maximal digit run, `[\.,]*` the following maximal run of `.`/`,`, `\d*` the
following maximal digit run; no backtracking can occur because the two
trailing pieces also accept the empty string. -/
def priceMatchAt (l : List Char) : String :=
  let d1 := l.takeWhile Char.isDigit
  let r1 := l.dropWhile Char.isDigit
  let p := r1.takeWhile pricePunct
  let r2 := r1.dropWhile pricePunct
  let d2 := r2.takeWhile Char.isDigit
  String.mk (d1 ++ p ++ d2)

/-- Go `regexp.FindStringSubmatch` for `priceRegEx`, scanning left to right
for the first position where a match can start (the first digit). -/
def priceScan : List Char → Option String
  | [] => none
  | c :: rest => if c.isDigit then some (priceMatchAt (c :: rest)) else priceScan rest

/-- The whole match (`matches[0]`) of `priceRegEx` against `s`, or `none`
when `FindStringSubmatch` returns nil. -/
def priceMatch (s : String) : Option String := priceScan s.toList

/-- A match of `itemIDRegEx` anchored at the head of `l`: the literal
`itm/`, then `([0-9]+)` greedily takes the maximal digit run (a shorter run
would be followed by a digit, never by `?`, so greediness loses nothing),
then the literal `?`.  Returns the capture group. -/
def tryItmAt : List Char → Option String
  | c1 :: c2 :: c3 :: c4 :: rest =>
    if c1 == 'i' && c2 == 't' && c3 == 'm' && c4 == '/' then
      let ds := rest.takeWhile Char.isDigit
      if ds != [] && (rest.dropWhile Char.isDigit).head? == some '?' then
        some (String.mk ds)
      else none
    else none
  | _ => none

/-- Go `regexp.FindStringSubmatch` for `itemIDRegEx`: try each start
position from the left; at the first position where the pattern matches,
return the capture group `matches[1]`. -/
def itemIDScan : List Char → Option String
  | [] => none
  | c :: rest =>
    match tryItmAt (c :: rest) with
    | some g => some g
    | none => itemIDScan rest

/-- Capture group `matches[1]` of `itemIDRegEx` against `s`, or `none` when
`FindStringSubmatch` returns nil.  (When the whole pattern matches the
non-optional group is always present, so the source's `len(matches) < 2`
check at line 205 can never fire.) -/
def itemIDMatch (s : String) : Option String := itemIDScan s.toList

/-- Source struct `ItemInfo` (lines 17-22); the JSON keys are
`title`, `condition`, `price`, `product_url`. -/
structure ItemInfo where
  title : String
  condition : String
  price : String
  productURL : String
  deriving DecidableEq, Repr

deriving instance DecidableEq for Except

/-- Observable outcome of one `processItemNode` call: the returned error
value (discarded by the caller in `main`), the `os.WriteFile` calls issued
(path and record; the JSON rendering is abstracted to the record itself),
and the lines printed to standard output. -/
structure ProcResult where
  ret : Except String Unit
  writes : List (String × ItemInfo)
  logs : List String
  deriving DecidableEq, Repr

/-- Final lines of `processItemNode` (260-271): build the record, marshal
it and write `data/<itemID>.json`.  The result of `os.WriteFile` is bound
to `_` in the source, which the `writeFile` parameter makes explicit: its
value is discarded. -/
def finishItem (writeFile : String → Except String Unit)
    (itemID href price title condition : String) (logs : List String) : ProcResult :=
  let item : ItemInfo := ⟨title, condition, price, href⟩
  let path := "data/" ++ itemID ++ ".json"
  let _ := writeFile path
  ⟨Except.ok (), [(path, item)], logs⟩

/-- Source `processItemNode` (lines 187-272), with the result of the final
`os.WriteFile` supplied by `writeFile` (the source discards it).  Error
messages follow the source; at lines 202 and 224 the source formats a nil
`err` into the message, which is abstracted away here. -/
def processItemNodeWith (writeFile : String → Except String Unit)
    (node : HtmlNode) : ProcResult :=
  match findFirstElementByAttr node "a" "class" "s-item__link" with
  | none => ⟨Except.error "ERROR::Item link node not found", [], []⟩
  | some itemLink =>
    match getElementAttrByName itemLink "href" with
    | Except.error e => ⟨Except.error ("ERROR::" ++ e), [], []⟩
    | Except.ok href =>
      match itemIDMatch href with
      | none => ⟨Except.error "ERROR::Price value cannot be parsed", [], []⟩
      | some itemID =>
        match findFirstElementByAttr node "span" "class" "s-item__price" with
        | none => ⟨Except.error "ERROR::Price node not found", [], []⟩
        | some priceNode =>
          match getElementNodeVal priceNode with
          | Except.error e => ⟨Except.error ("ERROR::Price value not found\n" ++ e), [], []⟩
          | Except.ok priceText =>
            match priceMatch priceText with
            | none => ⟨Except.error "ERROR::Price value cannot be parsed", [], []⟩
            | some price =>
              match findFirstElementByAttr node "div" "class" "s-item__title" with
              | none => ⟨Except.error "ERROR::Title DIV node not found", [], []⟩
              | some titleDivNode =>
                match findFirstElementByAttr titleDivNode "span" "role" "heading" with
                | none => ⟨Except.error "ERROR::Title SPAN node not found", [], []⟩
                | some titleNode =>
                  match getElementNodeVal titleNode with
                  | Except.error e =>
                    ⟨Except.error ("ERROR::Title value not found\n" ++ e), [], []⟩
                  | Except.ok title =>
                    match findFirstElementByAttr node "div" "class" "s-item__subtitle" with
                    | none =>
                      finishItem writeFile itemID href price title ""
                        ["WARNING::Condition DIV node not found " ++ itemID]
                    | some subtitleNode =>
                      match findFirstElementByAttr subtitleNode "span" "class" "SECONDARY_INFO" with
                      | none => ⟨Except.error "ERROR::Condition SPAN node not found", [], []⟩
                      | some conditionNode =>
                        match getElementNodeVal conditionNode with
                        | Except.error e =>
                          ⟨Except.error ("ERROR::Condition value not found\n" ++ e), [], []⟩
                        | Except.ok condition =>
                          finishItem writeFile itemID href price title condition []

/-- The item pipeline as `main` runs it: the `os.WriteFile` outcome is
irrelevant to the source, so it is fixed to success here. -/
def processItemNode (node : HtmlNode) : ProcResult :=
  processItemNodeWith (fun _ => Except.ok ()) node

/-- Outcome of one iteration of the page loop in `main` (lines 38-98):
either the process exits (`os.Exit code` after printing `msg`), or the loop
breaks (no next-page anchor), or it continues with a new `pageURL`. -/
inductive StepOutcome where
  | fatalExit (msg : String) (code : Nat)
  | done
  | nextPage (url : String)
  deriving DecidableEq, Repr

/-- Observable behaviour of one iteration of the page loop: its outcome,
the lines printed, and the files written by the dispatched item tasks. -/
structure PageStep where
  outcome : StepOutcome
  logs : List String
  writes : List (String × ItemInfo)
  deriving DecidableEq, Repr

/-- One iteration of the `for` loop of `main` (lines 38-98).

* `mkdirResult` is the value of `os.Mkdir("data", os.ModeDir)` (line 74),
  which the source never reads.
* `proc` is the per-item task body dispatched at line 81 (`main` discards
  its return value: the goroutine's error goes nowhere).
* `fetchParse` combines `getPageHTML` and `html.Parse` (lines 40-51): both
  failures print and `os.Exit(1)`, so a single `Except` covers them.

The source's `itemElementList == nil` check (line 55) can never fire — the
initial slice is non-nil and `append` keeps it non-nil — so it collapses
into the `len == 0` check, which prints the same message.  On a pagination
`href` failure the Go tuple assignment at line 91 still assigns the
returned zero value, so `pageURL` becomes the empty string. -/
def crawlStepWith (mkdirResult : Except String Unit) (proc : HtmlNode → ProcResult)
    (fetchParse : String → Except String HtmlNode) (pageURL : String) : PageStep :=
  match fetchParse pageURL with
  | Except.error e => ⟨.fatalExit e 1, [e], []⟩
  | Except.ok pageHTML =>
    let itemElementList := findItemElementsByClass pageHTML "li" "s-item" []
    if itemElementList.length = 0 then
      ⟨.fatalExit "Failed to get items" 1, ["Failed to get items"], []⟩
    else
      let nextButtonNode := findFirstElementByAttr pageHTML "a" "class" "pagination__next icon-link"
      let _ := mkdirResult
      let results := itemElementList.map proc
      let logs := ("Found " ++ toString itemElementList.length ++ " items") ::
        (results.map ProcResult.logs).flatten
      let writes := (results.map ProcResult.writes).flatten
      match nextButtonNode with
      | none => ⟨.done, logs, writes⟩
      | some nextBtn =>
        match getElementAttrByName nextBtn "href" with
        | Except.ok href => ⟨.nextPage href, logs, writes⟩
        | Except.error e =>
          ⟨.nextPage "", logs ++ ["ERROR::Failed to get next page " ++ e], writes⟩

/-- The page loop iteration as `main` actually runs it. -/
def crawlStep (fetchParse : String → Except String HtmlNode) (pageURL : String) : PageStep :=
  crawlStepWith (Except.ok ()) processItemNode fetchParse pageURL

/-- URLs fetched by the first `n` iterations of the page loop, starting
from `url`: an iteration fetches its URL; only a `nextPage` outcome leads
to a further fetch. -/
def crawlFetchList (fetchParse : String → Except String HtmlNode) :
    Nat → String → List String
  | 0, _ => []
  | n + 1, url =>
    url :: (match (crawlStep fetchParse url).outcome with
            | .nextPage u => crawlFetchList fetchParse n u
            | _ => [])

/-!
Spec-side definitions.  These follow the wording of the specification
(document pre-order, "class contains the substring", "non-empty id", the
per-field extraction recipes) and are compared with the source-side
functions above.
-/

/-- Document pre-order of the forest formed by a node and its following
siblings: each node precedes its descendants, descendants precede the next
sibling. -/
def preorderChain : HtmlNode → List HtmlNode
  | .nil => []
  | .mk k d a fc ns => HtmlNode.mk k d a fc ns :: (preorderChain fc ++ preorderChain ns)

/-- Document pre-order of the subtree rooted at a node (the node's own
siblings are outside its subtree). -/
def preorder : HtmlNode → List HtmlNode
  | .nil => []
  | .mk k d a fc ns => HtmlNode.mk k d a fc ns :: preorderChain fc

/-- An attribute that shows a `class` containing `cls` as a substring. -/
def classHit (cls : String) (a : HAttr) : Bool :=
  a.key == "class" && strContains a.val cls

/-- An attribute that shows a non-empty `id`. -/
def idHit (a : HAttr) : Bool := a.key == "id" && a.val != ""

/-- Spec wording for membership in the `findAllByClass` result: an element
node of the requested tag with a `class` attribute containing the requested
substring and a non-empty `id` attribute. -/
def specByClassQualifies (elementType className : String) : HtmlNode → Bool
  | .nil => false
  | .mk k d attrs _ _ =>
    decide (k = NodeKind.element) && d == elementType &&
      attrs.any (classHit className) && attrs.any idHit

/-- Spec wording for a `findFirstByAttr` hit: an element node of the
requested tag with an attribute of the requested name whose value contains
the requested substring. -/
def specAttrMatches (elementType attrName attrValue : String) : HtmlNode → Bool
  | .nil => false
  | .mk k d attrs _ _ =>
    decide (k = NodeKind.element) && d == elementType &&
      attrs.any (fun a => a.key == attrName && strContains a.val attrValue)

/-- Is this node the nil pointer? -/
def isNilNode : HtmlNode → Bool
  | .nil => true
  | _ => false

/-- Parser-shaped forest: in a tree produced by `html.Parse`, non-element
nodes (text, comments, doctypes) never have children. -/
def wfChain : HtmlNode → Bool
  | .nil => true
  | .mk k _ _ fc ns =>
    (decide (k = NodeKind.element) || isNilNode fc) && wfChain fc && wfChain ns

/-- Parser-shaped subtree: all strict descendants form a parser-shaped
forest (the root itself may be of any kind, e.g. the document node). -/
def wfRoot : HtmlNode → Bool
  | .nil => true
  | .mk _ _ _ fc _ => wfChain fc

/-- Extraction recipe for the item link `href` (spec §4.2, id/productURL
rows): first `<a>` whose class contains `s-item__link`, then its `href`. -/
def extractHref (node : HtmlNode) : Option String :=
  match findFirstElementByAttr node "a" "class" "s-item__link" with
  | none => none
  | some itemLink => (getElementAttrByName itemLink "href").toOption

/-- Extraction recipe for the item id (spec §4.2, id row): the capture
group of `itemIDRegEx` applied to the link `href`. -/
def extractIdField (node : HtmlNode) : Option String :=
  (extractHref node).bind itemIDMatch

/-- Extraction recipe for the price (spec §4.2, price row): first `<span>`
whose class contains `s-item__price`, its direct text, then the first
`priceRegEx` token. -/
def extractPriceField (node : HtmlNode) : Option String :=
  match findFirstElementByAttr node "span" "class" "s-item__price" with
  | none => none
  | some priceNode =>
    match getElementNodeVal priceNode with
    | Except.error _ => none
    | Except.ok t => priceMatch t

/-- Extraction recipe for the title (spec §4.2, title row, with the
`role` value matched by containment as `findFirstByAttr` specifies): first
`<div>` whose class contains `s-item__title`, inside it the first `<span>`
whose `role` contains `heading`, then its direct text. -/
def extractTitleField (node : HtmlNode) : Option String :=
  match findFirstElementByAttr node "div" "class" "s-item__title" with
  | none => none
  | some titleDiv =>
    match findFirstElementByAttr titleDiv "span" "role" "heading" with
    | none => none
    | some titleSpan => (getElementNodeVal titleSpan).toOption

/-- Declarative reading of a successful `itemIDRegEx` match on `s` with
digits `ds`: somewhere in `s` the literal `itm/` is followed by the
non-empty digit run `ds` and a literal `?`. -/
def itmDecomp (s : String) (ds : List Char) : Prop :=
  ∃ p q, s.toList = p ++ ('i' :: 't' :: 'm' :: '/' :: (ds ++ '?' :: q)) ∧
    ds ≠ [] ∧ ds.all Char.isDigit

/-!
Lemmas about the attribute scan and the collection search.
-/

/-- A string containing a non-empty substring is itself non-empty. -/
theorem strContains_val_ne_empty {v cls : String} (h : strContains v cls = true)
    (hcls : cls ≠ "") : v ≠ "" := by
  intro hv
  subst hv
  apply hcls
  cases hcl : cls.toList with
  | nil =>
    cases cls with
    | mk l =>
      simp only [String.toList, String.data] at hcl
      simp [hcl]
  | cons c rest =>
    rw [strContains, hcl] at h
    simp [subAt, isLeading] at h

/-- Boolean helper used to fold the `break` check of the attribute scan. -/
theorem ite_true_bool (b : Bool) (y : Bool) : (if b = true then true else y) = (b || y) := by
  cases b <;> simp

/-- Characterisation of the attribute-scanning loop for a non-empty class
substring: starting from accumulators `c` and `i`, the node qualifies
exactly when the attribute list is non-empty, some attribute matches the
class test (or `c` was already non-empty), and some attribute is a
non-empty `id` (or `i` was already non-empty). -/
theorem scanAttrs_eq {cls : String} (hcls : cls ≠ "") :
    ∀ (attrs : List HAttr) (c i : String),
      scanAttrs cls attrs c i =
        (!attrs.isEmpty && ((c != "") || attrs.any (classHit cls)) &&
          ((i != "") || attrs.any idHit)) := by
  intro attrs
  induction attrs with
  | nil => intro c i; simp [scanAttrs]
  | cons a rest ih =>
    intro c i
    have E1 : ((if a.key == "class" && strContains a.val cls then a.val else c) != "")
        = ((c != "") || classHit cls a) := by
      by_cases hB1 : (a.key == "class" && strContains a.val cls) = true
      · have hval : a.val ≠ "" :=
          strContains_val_ne_empty (Bool.and_elim_right hB1) hcls
        simp [classHit, hB1, hval]
      · simp only [classHit]
        simp [hB1]
    have E2 : ((if !(a.key == "class" && strContains a.val cls) &&
          (a.key == "id" && a.val != "") then a.val else i) != "")
        = ((i != "") || idHit a) := by
      by_cases hB2 : (a.key == "id" && a.val != "") = true
      · have hkey : a.key = "id" := by
          have := Bool.and_elim_left hB2
          simpa using this
        have hB1 : (a.key == "class" && strContains a.val cls) = false := by
          simp [hkey]
        have hval : (a.val != "") = true := Bool.and_elim_right hB2
        simp [idHit, hB1, hB2, hval, hkey]
      · simp only [idHit]
        simp [hB2]
    simp only [scanAttrs]
    rw [ih, E1, E2, ite_true_bool]
    cases rest with
    | nil =>
      simp only [List.isEmpty_nil, List.any_nil, List.any_cons, List.isEmpty_cons]
      cases hx : ((c != "") || classHit cls a) <;>
        cases hy : ((i != "") || idHit a) <;> simp [hx, hy]
    | cons b bs =>
      simp only [List.isEmpty_cons, List.any_cons, Bool.not_false, Bool.true_and]
      cases hc : (c != "") <;> cases hca : classHit cls a <;>
        cases hi : (i != "") <;> cases hia : idHit a <;> simp

/-- The qualification test of `findItemElementsByClass`agrees with the
spec-side membership predicate whenever the class substring is non-empty. -/
theorem qualify_eq {cls : String} (hcls : cls ≠ "") (t : String)
    (k : NodeKind) (d : String) (attrs : List HAttr) (fc ns : HtmlNode) :
    ((decide (k = NodeKind.element) && d == t) && scanAttrs cls attrs "" "") =
      specByClassQualifies t cls (HtmlNode.mk k d attrs fc ns) := by
  rw [scanAttrs_eq hcls]
  cases attrs with
  | nil => simp [specByClassQualifies]
  | cons a rest =>
    cases hA : decide (k = NodeKind.element) <;> cases hB : (d == t) <;>
      simp [specByClassQualifies, hA, hB, Bool.and_assoc]

/-- The children loop of the collection search, characterised: it appends
to the accumulator exactly the qualifying nodes of the forest, in document
pre-order. -/
theorem findSiblingChain_eq {cls : String} (hcls : cls ≠ "") (t : String) :
    ∀ (n : HtmlNode) (acc : List HtmlNode),
      findSiblingChain n t cls acc =
        acc ++ (preorderChain n).filter (specByClassQualifies t cls) := by
  intro n
  induction n with
  | nil => intro acc; simp [findSiblingChain, preorderChain]
  | mk k d attrs fc ns ihfc ihns =>
    intro acc
    simp only [findSiblingChain]
    rw [ihns, ihfc, qualify_eq hcls t k d attrs fc ns, preorderChain]
    rw [List.filter_cons, List.filter_append]
    by_cases hq : specByClassQualifies t cls (HtmlNode.mk k d attrs fc ns) = true
    · simp [hq, List.append_assoc]
    · simp only [Bool.not_eq_true] at hq
      simp [hq, List.append_assoc]

/-- Source-vs-spec characterisation of the collection search: for a
non-empty class substring it returns the accumulator followed by exactly
the qualifying nodes of the subtree, in document pre-order. -/
theorem findItemElementsByClass_eq {cls : String} (hcls : cls ≠ "") (t : String)
    (node : HtmlNode) (acc : List HtmlNode) :
    findItemElementsByClass node t cls acc =
      acc ++ (preorder node).filter (specByClassQualifies t cls) := by
  cases node with
  | nil => simp [findItemElementsByClass, preorder]
  | mk k d attrs fc ns =>
    simp only [findItemElementsByClass, preorder]
    rw [findSiblingChain_eq hcls, qualify_eq hcls t k d attrs fc ns, List.filter_cons]
    by_cases hq : specByClassQualifies t cls (HtmlNode.mk k d attrs fc ns) = true
    · simp [hq]
    · simp only [Bool.not_eq_true] at hq
      simp [hq]

/-!
Lemmas about the first-match search.
-/

/-- The children loop of the first-match search, characterised on
parser-shaped forests: it returns the first node of the forest's document
pre-order that satisfies the spec-side predicate. -/
theorem findFirstChain_eq (t a v : String) :
    ∀ n : HtmlNode, wfChain n = true →
      findFirstChain n t a v = (preorderChain n).find? (specAttrMatches t a v) := by
  intro n
  induction n with
  | nil => intro _; simp [findFirstChain, preorderChain]
  | mk k d attrs fc ns ihfc ihns =>
    intro hwf
    simp only [wfChain, Bool.and_eq_true] at hwf
    obtain ⟨⟨hor, hfc⟩, hns⟩ := hwf
    simp only [findFirstChain, preorderChain, List.find?_cons, List.find?_append]
    by_cases hel : decide (k = NodeKind.element) = true
    · by_cases hmatch : (d == t &&
          attrs.any (fun x => x.key == a && strContains x.val v)) = true
      · have hp : specAttrMatches t a v (HtmlNode.mk k d attrs fc ns) = true := by
          simp only [specAttrMatches, Bool.and_assoc, hel, Bool.true_and]
          exact hmatch
        simp [hel, hmatch, hp]
      · have hp : specAttrMatches t a v (HtmlNode.mk k d attrs fc ns) = false := by
          simp only [specAttrMatches, Bool.and_assoc, hel, Bool.true_and]
          exact Bool.eq_false_iff.mpr hmatch
        rw [if_pos hel, if_neg hmatch, hp, ihfc hfc, ihns hns]
        cases (preorderChain fc).find? (specAttrMatches t a v) <;> simp [Option.or]
    · have hnil : isNilNode fc = true := by
        rcases Bool.or_eq_true_iff.mp hor with h | h
        · exact absurd h hel
        · exact h
      have hfcnil : fc = HtmlNode.nil := by
        cases fc with
        | nil => rfl
        | mk _ _ _ _ _ => simp [isNilNode] at hnil
      have hp : specAttrMatches t a v (HtmlNode.mk k d attrs fc ns) = false := by
        simp only [specAttrMatches]
        simp [hel]
      rw [if_neg hel, hp, ihns hns, hfcnil]
      simp [preorderChain, Option.or]

/-- Source-vs-spec characterisation of the first-match search on
parser-shaped subtrees: it returns the first node of the subtree's document
pre-order (the root before its descendants) satisfying the spec-side
predicate, and `none` when no node qualifies. -/
theorem findFirstElementByAttr_eq (t a v : String) (node : HtmlNode)
    (hwf : wfRoot node = true) :
    findFirstElementByAttr node t a v = (preorder node).find? (specAttrMatches t a v) := by
  cases node with
  | nil => simp [findFirstElementByAttr, preorder]
  | mk k d attrs fc ns =>
    simp only [wfRoot] at hwf
    simp only [findFirstElementByAttr, preorder, List.find?_cons]
    by_cases hp : (decide (k = NodeKind.element) && d == t &&
        attrs.any (fun x => x.key == a && strContains x.val v)) = true
    · have hq : specAttrMatches t a v (HtmlNode.mk k d attrs fc ns) = true := by
        simpa [specAttrMatches] using hp
      simp [hp, hq]
    · have hq : specAttrMatches t a v (HtmlNode.mk k d attrs fc ns) = false := by
        simp only [specAttrMatches]
        exact Bool.eq_false_iff.mpr hp
      rw [if_neg hp, hq, findFirstChain_eq t a v fc hwf]

/-!
Lemmas about the two regular-expression matchers.
-/

/-- Splitting `takeWhile` / `dropWhile` around a known boundary. -/
theorem takeWhile_all_append {p : Char → Bool} :
    ∀ (l : List Char) (c : Char) (q : List Char), l.all p = true → p c = false →
      (l ++ c :: q).takeWhile p = l ∧ (l ++ c :: q).dropWhile p = c :: q := by
  intro l
  induction l with
  | nil =>
    intro c q _ hc
    simp [List.takeWhile_cons, List.dropWhile_cons, hc]
  | cons a as ih =>
    intro c q hall hc
    simp only [List.all_cons, Bool.and_eq_true] at hall
    obtain ⟨ha, has⟩ := hall
    obtain ⟨ht, hd⟩ := ih c q has hc
    simp [List.takeWhile_cons, List.dropWhile_cons, ha, ht, hd]

/-- Soundness of the anchored item-id match: on success the input starts
with `itm/`, a non-empty digit run equal to the capture, and a literal `?`. -/
theorem tryItmAt_sound : ∀ {l : List Char} {g : String}, tryItmAt l = some g →
    ∃ q, l = 'i' :: 't' :: 'm' :: '/' :: (g.toList ++ '?' :: q) ∧
      g.toList ≠ [] ∧ g.toList.all Char.isDigit = true := by
  intro l g h
  match l with
  | [] => simp [tryItmAt] at h
  | [c1] => simp [tryItmAt] at h
  | [c1, c2] => simp [tryItmAt] at h
  | [c1, c2, c3] => simp [tryItmAt] at h
  | c1 :: c2 :: c3 :: c4 :: rest =>
    simp only [tryItmAt] at h
    by_cases hpre : (c1 == 'i' && c2 == 't' && c3 == 'm' && c4 == '/') = true
    · rw [if_pos hpre] at h
      by_cases hcond : ((rest.takeWhile Char.isDigit) != [] &&
          (rest.dropWhile Char.isDigit).head? == some '?') = true
      · rw [if_pos hcond] at h
        have hg : g = String.mk (rest.takeWhile Char.isDigit) := by
          cases h; rfl
        simp only [Bool.and_eq_true, bne_iff_ne, ne_eq, beq_iff_eq] at hpre hcond
        obtain ⟨⟨⟨h1, h2⟩, h3⟩, h4⟩ := hpre
        obtain ⟨hne, hhead⟩ := hcond
        obtain ⟨tl, htl⟩ : ∃ tl, rest.dropWhile Char.isDigit = '?' :: tl := by
          cases hd : rest.dropWhile Char.isDigit with
          | nil => rw [hd] at hhead; simp at hhead
          | cons x xs =>
            rw [hd] at hhead
            simp only [List.head?_cons, Option.some.injEq] at hhead
            exact ⟨xs, by rw [hhead]⟩
        refine ⟨tl, ?_, ?_, ?_⟩
        · subst h1 h2 h3 h4
          simp only [List.cons.injEq, true_and]
          rw [hg]
          conv_lhs => rw [show rest = rest.takeWhile Char.isDigit ++ rest.dropWhile Char.isDigit
            from (List.takeWhile_append_dropWhile ..).symm]
          rw [htl]
          rfl
        · rw [hg]
          exact hne
        · rw [hg]
          exact List.all_takeWhile ..
      · rw [if_neg hcond] at h
        exact absurd h (by simp)
    · rw [if_neg hpre] at h
      exact absurd h (by simp)

/-- Completeness of the anchored item-id match: an `itm/`-digits-`?` head
always matches. -/
theorem tryItmAt_isSome {ds : List Char} (hne : ds ≠ []) (hdig : ds.all Char.isDigit = true)
    (q : List Char) :
    (tryItmAt ('i' :: 't' :: 'm' :: '/' :: (ds ++ '?' :: q))).isSome = true := by
  obtain ⟨ht, hd⟩ := takeWhile_all_append ds '?' q hdig (by decide)
  simp only [tryItmAt, ht, hd]
  simp [hne]

/-- Soundness of the item-id scan: a successful match decomposes the input
around `itm/`, the non-empty digit capture, and a literal `?`. -/
theorem itemIDScan_sound : ∀ {l : List Char} {g : String}, itemIDScan l = some g →
    ∃ p q, l = p ++ ('i' :: 't' :: 'm' :: '/' :: (g.toList ++ '?' :: q)) ∧
      g.toList ≠ [] ∧ g.toList.all Char.isDigit = true := by
  intro l
  induction l with
  | nil => intro g h; simp [itemIDScan] at h
  | cons c rest ih =>
    intro g h
    simp only [itemIDScan] at h
    cases htry : tryItmAt (c :: rest) with
    | some g2 =>
      rw [htry] at h
      cases h
      obtain ⟨q, heq, hne, hdig⟩ := tryItmAt_sound htry
      exact ⟨[], q, by simpa using heq, hne, hdig⟩
    | none =>
      rw [htry] at h
      obtain ⟨p, q, heq, hne, hdig⟩ := ih h
      exact ⟨c :: p, q, by simp [heq], hne, hdig⟩

/-- Completeness of the item-id scan: whenever the input contains
`itm/`-digits-`?` somewhere, the scan succeeds. -/
theorem itemIDScan_isSome {ds : List Char} (hne : ds ≠ []) (hdig : ds.all Char.isDigit = true) :
    ∀ (p q : List Char),
      (itemIDScan (p ++ ('i' :: 't' :: 'm' :: '/' :: (ds ++ '?' :: q)))).isSome = true := by
  intro p
  induction p with
  | nil =>
    intro q
    simp only [List.nil_append, itemIDScan]
    cases htry : tryItmAt ('i' :: 't' :: 'm' :: '/' :: (ds ++ '?' :: q)) with
    | some g => simp
    | none =>
      have := tryItmAt_isSome hne hdig q
      rw [htry] at this
      simp at this
  | cons c p ih =>
    intro q
    simp only [List.cons_append, itemIDScan]
    cases htry : tryItmAt (c :: (p ++ ('i' :: 't' :: 'm' :: '/' :: (ds ++ '?' :: q)))) with
    | some g => simp
    | none => exact ih q

/-- Soundness of `itemIDMatch` in terms of the declarative decomposition. -/
theorem itemIDMatch_sound {s : String} {g : String} (h : itemIDMatch s = some g) :
    itmDecomp s g.toList := by
  obtain ⟨p, q, heq, hne, hdig⟩ := itemIDScan_sound h
  exact ⟨p, q, heq, hne, hdig⟩

/-- Completeness of `itemIDMatch`: a declarative decomposition anywhere in
the string guarantees a successful match. -/
theorem itemIDMatch_isSome {s : String} {ds : List Char} (h : itmDecomp s ds) :
    (itemIDMatch s).isSome = true := by
  obtain ⟨p, q, heq, hne, hdig⟩ := h
  rw [itemIDMatch, heq]
  exact itemIDScan_isSome hne hdig p q

/-- Soundness of the price scan: a successful match is the first maximal
digit run of the input, followed by a maximal run of `.`/`,` and a further
maximal digit run; everything before the match holds no digit. -/
theorem priceScan_sound : ∀ {l : List Char} {m : String}, priceScan l = some m →
    ∃ pre d1 p d2 tail, l = pre ++ d1 ++ p ++ d2 ++ tail ∧
      pre.all (fun c => !c.isDigit) = true ∧ m.toList = d1 ++ p ++ d2 ∧
      d1 ≠ [] ∧ d1.all Char.isDigit = true ∧ p.all pricePunct = true ∧
      d2.all Char.isDigit = true := by
  intro l
  induction l with
  | nil => intro m h; simp [priceScan] at h
  | cons c rest ih =>
    intro m h
    simp only [priceScan] at h
    by_cases hc : c.isDigit = true
    · rw [if_pos hc] at h
      have hm : m = priceMatchAt (c :: rest) := by cases h; rfl
      refine ⟨[], (c :: rest).takeWhile Char.isDigit,
        ((c :: rest).dropWhile Char.isDigit).takeWhile pricePunct,
        (((c :: rest).dropWhile Char.isDigit).dropWhile pricePunct).takeWhile Char.isDigit,
        (((c :: rest).dropWhile Char.isDigit).dropWhile pricePunct).dropWhile Char.isDigit,
        ?_, by simp, ?_, ?_, ?_, ?_, ?_⟩
      · symm
        rw [List.nil_append, List.append_assoc, List.append_assoc,
            List.takeWhile_append_dropWhile, List.takeWhile_append_dropWhile,
            List.takeWhile_append_dropWhile]
      · rw [hm]
        rfl
      · simp [List.takeWhile_cons, hc]
      · exact List.all_takeWhile ..
      · exact List.all_takeWhile ..
      · exact List.all_takeWhile ..
    · rw [if_neg hc] at h
      obtain ⟨pre, d1, p, d2, tail, heq, hpre, hm, hne, hd1, hp, hd2⟩ := ih h
      refine ⟨c :: pre, d1, p, d2, tail, by simp [heq], ?_, hm, hne, hd1, hp, hd2⟩
      simp only [List.all_cons, hpre, Bool.and_true]
      simp [Bool.eq_false_iff.mpr hc]

/-!
Lemmas about the item pipeline.
-/

/-- Every file the item pipeline writes comes from a fully successful run:
the single write's path is `data/<id>.json` for the id captured from the
link `href`, and every field of the written record is the value produced by
the corresponding extraction recipe. -/
theorem processItemNodeWith_writes_spec (w : String → Except String Unit)
    (node : HtmlNode) (path : String) (info : ItemInfo)
    (h : (path, info) ∈ (processItemNodeWith w node).writes) :
    ∃ itemLink href itemID priceNode priceText titleDiv titleSpan,
      findFirstElementByAttr node "a" "class" "s-item__link" = some itemLink ∧
      getElementAttrByName itemLink "href" = Except.ok href ∧
      itemIDMatch href = some itemID ∧
      findFirstElementByAttr node "span" "class" "s-item__price" = some priceNode ∧
      getElementNodeVal priceNode = Except.ok priceText ∧
      priceMatch priceText = some info.price ∧
      findFirstElementByAttr node "div" "class" "s-item__title" = some titleDiv ∧
      findFirstElementByAttr titleDiv "span" "role" "heading" = some titleSpan ∧
      getElementNodeVal titleSpan = Except.ok info.title ∧
      path = "data/" ++ itemID ++ ".json" ∧ info.productURL = href ∧
      ((findFirstElementByAttr node "div" "class" "s-item__subtitle" = none ∧
          info.condition = "") ∨
        (∃ subtitleNode conditionNode,
          findFirstElementByAttr node "div" "class" "s-item__subtitle" = some subtitleNode ∧
          findFirstElementByAttr subtitleNode "span" "class" "SECONDARY_INFO" =
            some conditionNode ∧
          getElementNodeVal conditionNode = Except.ok info.condition)) := by
  unfold processItemNodeWith at h
  cases h1 : findFirstElementByAttr node "a" "class" "s-item__link" with
  | none => simp only [h1] at h; simp at h
  | some itemLink =>
  simp only [h1] at h
  cases h2 : getElementAttrByName itemLink "href" with
  | error e => simp only [h2] at h; simp at h
  | ok href =>
  simp only [h2] at h
  cases h3 : itemIDMatch href with
  | none => simp only [h3] at h; simp at h
  | some itemID =>
  simp only [h3] at h
  cases h4 : findFirstElementByAttr node "span" "class" "s-item__price" with
  | none => simp only [h4] at h; simp at h
  | some priceNode =>
  simp only [h4] at h
  cases h5 : getElementNodeVal priceNode with
  | error e => simp only [h5] at h; simp at h
  | ok priceText =>
  simp only [h5] at h
  cases h6 : priceMatch priceText with
  | none => simp only [h6] at h; simp at h
  | some price =>
  simp only [h6] at h
  cases h7 : findFirstElementByAttr node "div" "class" "s-item__title" with
  | none => simp only [h7] at h; simp at h
  | some titleDiv =>
  simp only [h7] at h
  cases h8 : findFirstElementByAttr titleDiv "span" "role" "heading" with
  | none => simp only [h8] at h; simp at h
  | some titleSpan =>
  simp only [h8] at h
  cases h9 : getElementNodeVal titleSpan with
  | error e => simp only [h9] at h; simp at h
  | ok title =>
  simp only [h9] at h
  cases h10 : findFirstElementByAttr node "div" "class" "s-item__subtitle" with
  | none =>
    simp only [h10] at h
    simp only [finishItem, List.mem_singleton, Prod.mk.injEq] at h
    obtain ⟨hp, hi⟩ := h
    subst hi
    exact ⟨itemLink, href, itemID, priceNode, priceText, titleDiv, titleSpan,
      rfl, h2, h3, rfl, h5, h6, rfl, h8, h9, hp, rfl, Or.inl ⟨rfl, rfl⟩⟩
  | some subtitleNode =>
  simp only [h10] at h
  cases h11 : findFirstElementByAttr subtitleNode "span" "class" "SECONDARY_INFO" with
  | none => simp only [h11] at h; simp at h
  | some conditionNode =>
  simp only [h11] at h
  cases h12 : getElementNodeVal conditionNode with
  | error e => simp only [h12] at h; simp at h
  | ok condition =>
  simp only [h12] at h
  simp only [finishItem, List.mem_singleton, Prod.mk.injEq] at h
  obtain ⟨hp, hi⟩ := h
  subst hi
  exact ⟨itemLink, href, itemID, priceNode, priceText, titleDiv, titleSpan,
    rfl, h2, h3, rfl, h5, h6, rfl, h8, h9, hp, rfl,
    Or.inr ⟨subtitleNode, conditionNode, rfl, h11, h12⟩⟩

/-- A string with a non-empty left part under append is non-empty. -/
theorem string_append_ne_empty (a b : String) (ha : a ≠ "") : a ++ b ≠ "" := by
  intro h
  apply ha
  rw [String.ext_iff] at h ⊢
  have hd : (a ++ b).data = a.data ++ b.data := by
    cases a
    cases b
    rfl
  rw [hd] at h
  have : a.data = [] := List.append_eq_nil.mp h |>.1
  simpa using this

/-- A miss of any mandatory field (id with its link and href, price, or
title) makes the pipeline return a non-empty descriptive error, write no
file and print nothing, whatever the write oracle. -/
theorem processItemNodeWith_err_of_miss (w : String → Except String Unit)
    (node : HtmlNode)
    (h : extractIdField node = none ∨ extractPriceField node = none ∨
      extractTitleField node = none) :
    ∃ e, processItemNodeWith w node = ⟨Except.error e, [], []⟩ ∧ e ≠ "" := by
  unfold processItemNodeWith
  cases h1 : findFirstElementByAttr node "a" "class" "s-item__link" with
  | none => exact ⟨_, rfl, by decide⟩
  | some itemLink =>
  simp only [h1]
  cases h2 : getElementAttrByName itemLink "href" with
  | error e => exact ⟨_, rfl, string_append_ne_empty "ERROR::" e (by decide)⟩
  | ok href =>
  simp only [h2]
  cases h3 : itemIDMatch href with
  | none => exact ⟨_, rfl, by decide⟩
  | some itemID =>
  simp only [h3]
  cases h4 : findFirstElementByAttr node "span" "class" "s-item__price" with
  | none => exact ⟨_, rfl, by decide⟩
  | some priceNode =>
  simp only [h4]
  cases h5 : getElementNodeVal priceNode with
  | error e => exact ⟨_, rfl, string_append_ne_empty "ERROR::Price value not found\n" e (by decide)⟩
  | ok priceText =>
  simp only [h5]
  cases h6 : priceMatch priceText with
  | none => exact ⟨_, rfl, by decide⟩
  | some price =>
  simp only [h6]
  cases h7 : findFirstElementByAttr node "div" "class" "s-item__title" with
  | none => exact ⟨_, rfl, by decide⟩
  | some titleDiv =>
  simp only [h7]
  cases h8 : findFirstElementByAttr titleDiv "span" "role" "heading" with
  | none => exact ⟨_, rfl, by decide⟩
  | some titleSpan =>
  simp only [h8]
  cases h9 : getElementNodeVal titleSpan with
  | error e => exact ⟨_, rfl, string_append_ne_empty "ERROR::Title value not found\n" e (by decide)⟩
  | ok title =>
  exfalso
  rcases h with hm | hm | hm
  · simp [extractIdField, extractHref, h1, h2, h3, Except.toOption] at hm
  · simp [extractPriceField, h4, h5, h6] at hm
  · simp [extractTitleField, h7, h8, h9, Except.toOption] at hm

/-!
Concrete markup fixtures used by witnesses and counterexamples.  Each item
fixture follows the upstream markup contract of the spec (link, price span,
title div with heading span, optional subtitle div).
-/

/-- Subtitle container with a `SECONDARY_INFO` condition span. -/
def subA : HtmlNode :=
  .mk .element "div" [⟨"class", "s-item__subtitle"⟩]
    (.mk .element "span" [⟨"class", "SECONDARY_INFO"⟩]
      (.mk .text "Brand New" [] .nil .nil) .nil) .nil

/-- Title container of the complete fixture. -/
def titleDivA : HtmlNode :=
  .mk .element "div" [⟨"class", "s-item__title"⟩]
    (.mk .element "span" [⟨"role", "heading"⟩]
      (.mk .text "Nice" [] .nil .nil) .nil) subA

/-- Price span of the complete fixture. -/
def priceSpanA : HtmlNode :=
  .mk .element "span" [⟨"class", "s-item__price"⟩]
    (.mk .text "$15.99" [] .nil .nil) titleDivA

/-- Link anchor of the complete fixture. -/
def linkA : HtmlNode :=
  .mk .element "a" [⟨"class", "s-item__link"⟩, ⟨"href", "itm/123?x"⟩] .nil priceSpanA

/-- A complete item node: link, price, title and subtitle all present. -/
def itemA : HtmlNode :=
  .mk .element "li" [⟨"class", "s-item"⟩, ⟨"id", "item1"⟩] linkA .nil

/-- Title container with no following subtitle sibling. -/
def titleDivB : HtmlNode :=
  .mk .element "div" [⟨"class", "s-item__title"⟩]
    (.mk .element "span" [⟨"role", "heading"⟩]
      (.mk .text "Nice" [] .nil .nil) .nil) .nil

/-- Price span of the subtitle-less fixture. -/
def priceSpanB : HtmlNode :=
  .mk .element "span" [⟨"class", "s-item__price"⟩]
    (.mk .text "$15.99" [] .nil .nil) titleDivB

/-- Link anchor of the subtitle-less fixture. -/
def linkB : HtmlNode :=
  .mk .element "a" [⟨"class", "s-item__link"⟩, ⟨"href", "itm/123?x"⟩] .nil priceSpanB

/-- An item node with every mandatory field but no subtitle container. -/
def itemNoSub : HtmlNode :=
  .mk .element "li" [⟨"class", "s-item"⟩, ⟨"id", "item1"⟩] linkB .nil

/-- Subtitle container whose inner span lacks the `SECONDARY_INFO` class. -/
def subC : HtmlNode :=
  .mk .element "div" [⟨"class", "s-item__subtitle"⟩]
    (.mk .element "span" [⟨"class", "OTHER"⟩]
      (.mk .text "Refurbished" [] .nil .nil) .nil) .nil

/-- Title container followed by the ill-formed subtitle container. -/
def titleDivC : HtmlNode :=
  .mk .element "div" [⟨"class", "s-item__title"⟩]
    (.mk .element "span" [⟨"role", "heading"⟩]
      (.mk .text "Nice" [] .nil .nil) .nil) subC

/-- Price span of the ill-formed-subtitle fixture. -/
def priceSpanC : HtmlNode :=
  .mk .element "span" [⟨"class", "s-item__price"⟩]
    (.mk .text "$15.99" [] .nil .nil) titleDivC

/-- Link anchor of the ill-formed-subtitle fixture. -/
def linkC : HtmlNode :=
  .mk .element "a" [⟨"class", "s-item__link"⟩, ⟨"href", "itm/123?x"⟩] .nil priceSpanC

/-- An item node whose subtitle container exists but holds no
`SECONDARY_INFO` span. -/
def itemBadSub : HtmlNode :=
  .mk .element "li" [⟨"class", "s-item"⟩, ⟨"id", "item1"⟩] linkC .nil

/-- An item node with no children at all: every per-item lookup fails. -/
def badItem : HtmlNode :=
  .mk .element "li" [⟨"class", "s-item"⟩, ⟨"id", "b1"⟩] .nil .nil

/-- Title container whose only span carries `role="subheading"`: it has no
span whose `role` equals `heading`, yet the `role` value does contain
`heading` as a substring. -/
def titleDivD : HtmlNode :=
  .mk .element "div" [⟨"class", "s-item__title"⟩]
    (.mk .element "span" [⟨"role", "subheading"⟩]
      (.mk .text "WRONG" [] .nil .nil) .nil) .nil

/-- Price span of the `subheading` fixture. -/
def priceSpanD : HtmlNode :=
  .mk .element "span" [⟨"class", "s-item__price"⟩]
    (.mk .text "$15.99" [] .nil .nil) titleDivD

/-- Link anchor of the `subheading` fixture. -/
def linkD : HtmlNode :=
  .mk .element "a" [⟨"class", "s-item__link"⟩, ⟨"href", "itm/123?x"⟩] .nil priceSpanD

/-- An item node whose title container has a `role="subheading"` span and
no `role="heading"` span. -/
def itemSubheading : HtmlNode :=
  .mk .element "li" [⟨"class", "s-item"⟩, ⟨"id", "item1"⟩] linkD .nil

/-- Does the node carry a `role` attribute whose value is exactly
`heading`?  (Spec-side reading of the title recipe taken literally.) -/
def hasExactRoleHeading : HtmlNode → Bool
  | .nil => false
  | .mk k d attrs _ _ =>
    decide (k = NodeKind.element) && d == "span" &&
      attrs.any (fun a => a.key == "role" && a.val == "heading")

/-- Next-page anchor carrying no `href` attribute. -/
def nextBtn1 : HtmlNode :=
  .mk .element "a" [⟨"class", "pagination__next icon-link"⟩] .nil .nil

/-- A collection item of the pagination fixture page. -/
def pageItem1 : HtmlNode :=
  .mk .element "li" [⟨"class", "s-item"⟩, ⟨"id", "p1i1"⟩] .nil nextBtn1

/-- Page with one item and an `href`-less next-page anchor. -/
def page1 : HtmlNode := .mk .element "html" [] pageItem1 .nil

/-- Environment serving `page1` at the start URL; any other URL (in
particular the empty one) fails as the Go HTTP client would. -/
def env1 : String → Except String HtmlNode := fun u =>
  if u = "http://p1" then Except.ok page1
  else Except.error "Get: unsupported protocol scheme"

/-- Page with no item nodes at all. -/
def page7 : HtmlNode := .mk .element "html" [] .nil .nil

/-- Environment serving the empty collection page everywhere. -/
def env7 : String → Except String HtmlNode := fun _ => Except.ok page7

/-- Environment serving a page whose only item has no link anchor. -/
def env6 : String → Except String HtmlNode := fun _ =>
  Except.ok (.mk .element "html" [] badItem .nil)

/-- Element `li` node with an empty `class` value and a non-empty `id`:
the membership predicate of the spec accepts it for the empty class
substring, the source's scan does not. -/
def c4Node : HtmlNode :=
  .mk .element "li" [⟨"class", ""⟩, ⟨"id", "x"⟩] .nil .nil

/-!
Claim theorems.
-/

/-- C1 (counterexample).  The claim asserts that after a pagination `href`
read failure the loop continues with the OLD `currentPageURL`, refetching
the same page indefinitely.  On the fixture page (one item, an `href`-less
next-page anchor) the loop instead continues with the EMPTY url — the Go
tuple assignment `pageURL, err = ...` stores the returned zero value — and
the crawl fetches the start URL exactly once: the fetch list over three
iterations is `[start, ""]`, not three copies of the start URL. -/
theorem C1_counterexample :
    (crawlStep env1 "http://p1").outcome = StepOutcome.nextPage "" ∧
      StepOutcome.nextPage "" ≠ StepOutcome.nextPage "http://p1" ∧
      crawlFetchList env1 3 "http://p1" = ["http://p1", ""] := by decide

/-- C1 (amended).  If a next-page anchor was found but reading its `href`
fails, the failure is logged and the crawl is not stopped at once: the loop
continues with `currentPageURL` set to the empty string (the zero value Go
assigns alongside the error), so the next iteration fetches the empty URL
and, when that fetch fails, the process exits; the original page is not
refetched. -/
theorem C1_pagination_href_failure (fetchParse : String → Except String HtmlNode)
    (url : String) (tree nextBtn : HtmlNode) (e : String)
    (hfetch : fetchParse url = Except.ok tree)
    (hitems : findItemElementsByClass tree "li" "s-item" [] ≠ [])
    (hbtn : findFirstElementByAttr tree "a" "class" "pagination__next icon-link" =
      some nextBtn)
    (hhref : getElementAttrByName nextBtn "href" = Except.error e) :
    (crawlStep fetchParse url).outcome = StepOutcome.nextPage "" ∧
      ("ERROR::Failed to get next page " ++ e) ∈ (crawlStep fetchParse url).logs ∧
      (∀ e2, fetchParse "" = Except.error e2 →
        ∀ n, crawlFetchList fetchParse (n + 2) url = [url, ""]) := by
  have hstep : crawlStep fetchParse url =
      ⟨StepOutcome.nextPage "",
        (("Found " ++ toString (findItemElementsByClass tree "li" "s-item" []).length ++
            " items") ::
          (((findItemElementsByClass tree "li" "s-item" []).map processItemNode).map
            ProcResult.logs).flatten) ++
          ["ERROR::Failed to get next page " ++ e],
        (((findItemElementsByClass tree "li" "s-item" []).map processItemNode).map
          ProcResult.writes).flatten⟩ := by
    unfold crawlStep crawlStepWith
    simp only [hfetch]
    rw [if_neg (fun h => hitems (List.length_eq_zero.mp h))]
    simp only [hbtn, hhref]
  refine ⟨by rw [hstep], by rw [hstep]; simp, ?_⟩
  intro e2 he2 n
  have houtcome : (crawlStep fetchParse url).outcome = StepOutcome.nextPage "" := by
    rw [hstep]
  have hstep0 : (crawlStep fetchParse "").outcome = StepOutcome.fatalExit e2 1 := by
    unfold crawlStep crawlStepWith
    simp [he2]
  simp only [crawlFetchList, houtcome, hstep0]

/-- Witness for C1: the amended behaviour on the concrete fixture
environment, with every hypothesis discharged by computation. -/
theorem C1_pagination_href_failure_witness :
    (crawlStep env1 "http://p1").outcome = StepOutcome.nextPage "" ∧
      ("ERROR::Failed to get next page " ++ "ERROR::Attribute href not found") ∈
        (crawlStep env1 "http://p1").logs ∧
      crawlFetchList env1 4 "http://p1" = ["http://p1", ""] :=
  ⟨(C1_pagination_href_failure env1 "http://p1" page1 nextBtn1
      "ERROR::Attribute href not found" (by decide) (by decide) (by decide) (by decide)).1,
   (C1_pagination_href_failure env1 "http://p1" page1 nextBtn1
      "ERROR::Attribute href not found" (by decide) (by decide) (by decide) (by decide)).2.1,
   (C1_pagination_href_failure env1 "http://p1" page1 nextBtn1
      "ERROR::Attribute href not found" (by decide) (by decide) (by decide) (by decide)).2.2
      "Get: unsupported protocol scheme" (by decide) 2⟩

/-- C2 (counterexample).  The claim asserts that the price string
`"$1,234.56 to $1,500.00"` normalises to `"1,234.56"`.  The source regex
`\d+[\.,]*\d*` cannot cross a second separator: its leftmost-first match on
that string is `"1,234"`. -/
theorem C2_counterexample :
    priceMatch "$1,234.56 to $1,500.00" = some "1,234" ∧
      ("1,234" : String) ≠ "1,234.56" := by decide

/-- C2 (amended).  Price normalisation extracts the first token of the
price node's direct text matching `\d+[\.,]*\d*` — a first maximal digit
run, then separators, then a further digit run, starting at the first digit
of the text — and for the input `"$1,234.56 to $1,500.00"` the normalised
price equals `"1,234"`. -/
theorem C2_price_normalization :
    (∀ (w : String → Except String Unit) (node : HtmlNode) (path : String) (info : ItemInfo),
      (path, info) ∈ (processItemNodeWith w node).writes →
      ∃ priceNode priceText,
        findFirstElementByAttr node "span" "class" "s-item__price" = some priceNode ∧
        getElementNodeVal priceNode = Except.ok priceText ∧
        priceMatch priceText = some info.price) ∧
    (∀ (s m : String), priceMatch s = some m →
      ∃ pre d1 p d2 tail, s.toList = pre ++ d1 ++ p ++ d2 ++ tail ∧
        pre.all (fun c => !c.isDigit) = true ∧ m.toList = d1 ++ p ++ d2 ∧
        d1 ≠ [] ∧ d1.all Char.isDigit = true ∧ p.all pricePunct = true ∧
        d2.all Char.isDigit = true) ∧
    priceMatch "$1,234.56 to $1,500.00" = some "1,234" := by
  refine ⟨?_, ?_, by decide⟩
  · intro w node path info h
    obtain ⟨iL, hrefv, iIDv, pN, pT, tD, tS, e1, e2, e3, e4, e5, e6, e7, e8, e9,
      e10, e11, e12⟩ := processItemNodeWith_writes_spec w node path info h
    exact ⟨pN, pT, e4, e5, e6⟩
  · intro s m h
    exact priceScan_sound h

/-- Witness for C2: the price recipe applied to the complete fixture item,
and the decomposition of the counterexample input. -/
theorem C2_price_normalization_witness :
    (∃ priceNode priceText,
      findFirstElementByAttr itemA "span" "class" "s-item__price" = some priceNode ∧
      getElementNodeVal priceNode = Except.ok priceText ∧
      priceMatch priceText =
        some (ItemInfo.mk "Nice" "Brand New" "15.99" "itm/123?x").price) ∧
    (∃ pre d1 p d2 tail,
      ("$1,234.56 to $1,500.00").toList = pre ++ d1 ++ p ++ d2 ++ tail ∧
      pre.all (fun c => !c.isDigit) = true ∧ ("1,234" : String).toList = d1 ++ p ++ d2 ∧
      d1 ≠ [] ∧ d1.all Char.isDigit = true ∧ p.all pricePunct = true ∧
      d2.all Char.isDigit = true) :=
  ⟨C2_price_normalization.1 (fun _ => Except.ok ()) itemA "data/123.json"
      (ItemInfo.mk "Nice" "Brand New" "15.99" "itm/123?x") (by decide),
   C2_price_normalization.2.1 "$1,234.56 to $1,500.00" "1,234" (by decide)⟩

/-- C3.  The item id is the capture of `itm\/([0-9]+)\?` applied to the
`href` of the first `<a>` whose class contains `s-item__link`: every
written file's name is `data/<capture>.json`, the record's url is that
`href`, a missing id aborts the item with a descriptive error, and the
capture is sound and complete for the declarative reading of the pattern
(digits bracketed by a literal `itm/` and a literal `?`). -/
theorem C3_item_id_extraction :
    (∀ (w : String → Except String Unit) (node : HtmlNode),
      extractIdField node = none →
      ∃ e, processItemNodeWith w node = ⟨Except.error e, [], []⟩ ∧ e ≠ "") ∧
    (∀ (w : String → Except String Unit) (node : HtmlNode) (path : String) (info : ItemInfo),
      (path, info) ∈ (processItemNodeWith w node).writes →
      ∃ itemLink href itemID,
        findFirstElementByAttr node "a" "class" "s-item__link" = some itemLink ∧
        getElementAttrByName itemLink "href" = Except.ok href ∧
        itemIDMatch href = some itemID ∧
        path = "data/" ++ itemID ++ ".json" ∧ info.productURL = href) ∧
    (∀ s g : String, itemIDMatch s = some g → itmDecomp s g.toList) ∧
    (∀ (s : String) (ds : List Char), itmDecomp s ds → (itemIDMatch s).isSome = true) := by
  refine ⟨?_, ?_, ?_, ?_⟩
  · intro w node h
    exact processItemNodeWith_err_of_miss w node (Or.inl h)
  · intro w node path info h
    obtain ⟨iL, hrefv, iIDv, pN, pT, tD, tS, e1, e2, e3, e4, e5, e6, e7, e8, e9,
      e10, e11, e12⟩ := processItemNodeWith_writes_spec w node path info h
    exact ⟨iL, hrefv, iIDv, e1, e2, e3, e10, e11⟩
  · intro s g h
    exact itemIDMatch_sound h
  · intro s ds h
    exact itemIDMatch_isSome h

/-- Witness for C3: a real listing `href` decomposes as the pattern
demands, the declarative decomposition of a small string implies a match,
and an item without a link anchor fails with a descriptive error. -/
theorem C3_item_id_extraction_witness :
    itmDecomp "https://www.ebay.com/itm/123456789012?hash=x" ("123456789012".toList) ∧
      (itemIDMatch "itm/77?z").isSome = true ∧
      (∃ e, processItemNodeWith (fun _ => Except.ok ()) badItem =
        ⟨Except.error e, [], []⟩ ∧ e ≠ "") :=
  ⟨C3_item_id_extraction.2.2.1 "https://www.ebay.com/itm/123456789012?hash=x"
      "123456789012" (by decide),
   C3_item_id_extraction.2.2.2 "itm/77?z" (['7', '7']) ⟨[], ['z'], by decide, by decide, by decide⟩,
   C3_item_id_extraction.1 (fun _ => Except.ok ()) badItem (by decide)⟩

/-- C4 (counterexample).  The claim quantifies over every class substring;
for the empty substring it fails: the element `li` node with attributes
`class=""` and `id="x"` satisfies the spec-side membership predicate (its
class trivially contains the empty substring and its id is non-empty), yet
the source scan leaves its `class` accumulator empty and returns no node. -/
theorem C4_counterexample :
    specByClassQualifies "li" "" c4Node = true ∧
      findItemElementsByClass c4Node "li" "" [] = [] := by decide

/-- C4 (amended).  For every markup tree and every NON-EMPTY class
substring, `findItemElementsByClass` returns exactly the element nodes of
the requested tag whose `class` attribute contains the substring and which
carry a non-empty `id` attribute, in document pre-order (and, being a total
function into lists, it can only return an empty collection, never a null
one). -/
theorem C4_findAll_characterization (elementType className : String)
    (hcls : className ≠ "") (root : HtmlNode) :
    findItemElementsByClass root elementType className [] =
      (preorder root).filter (specByClassQualifies elementType className) := by
  rw [findItemElementsByClass_eq hcls]
  simp

/-- Witness for C4: the characterisation evaluated on the fixture page with
the substring the crawler actually uses. -/
theorem C4_findAll_characterization_witness :
    findItemElementsByClass page1 "li" "s-item" [] =
      (preorder page1).filter (specByClassQualifies "li" "s-item") :=
  C4_findAll_characterization "li" "s-item" (by decide) page1

/-- C5.  Condition extraction is asymmetric.  With every mandatory recipe
succeeding: if no div's class contains `s-item__subtitle`, the record is
still produced with an empty condition and persisted, and only a warning is
printed; if such a div exists but holds no span whose class contains
`SECONDARY_INFO`, the item fails, nothing is written, and (the write oracle
being arbitrary) nothing depends on the skipped write. -/
theorem C5_condition_asymmetry :
    (∀ (w : String → Except String Unit) (node itemLink : HtmlNode) (href itemID : String)
        (priceNode : HtmlNode) (priceText price : String) (titleDiv titleSpan : HtmlNode)
        (title : String),
      findFirstElementByAttr node "a" "class" "s-item__link" = some itemLink →
      getElementAttrByName itemLink "href" = Except.ok href →
      itemIDMatch href = some itemID →
      findFirstElementByAttr node "span" "class" "s-item__price" = some priceNode →
      getElementNodeVal priceNode = Except.ok priceText →
      priceMatch priceText = some price →
      findFirstElementByAttr node "div" "class" "s-item__title" = some titleDiv →
      findFirstElementByAttr titleDiv "span" "role" "heading" = some titleSpan →
      getElementNodeVal titleSpan = Except.ok title →
      findFirstElementByAttr node "div" "class" "s-item__subtitle" = none →
      processItemNodeWith w node =
        ⟨Except.ok (), [("data/" ++ itemID ++ ".json", ⟨title, "", price, href⟩)],
          ["WARNING::Condition DIV node not found " ++ itemID]⟩) ∧
    (∀ (w : String → Except String Unit) (node itemLink : HtmlNode) (href itemID : String)
        (priceNode : HtmlNode) (priceText price : String) (titleDiv titleSpan : HtmlNode)
        (title : String) (subtitleNode : HtmlNode),
      findFirstElementByAttr node "a" "class" "s-item__link" = some itemLink →
      getElementAttrByName itemLink "href" = Except.ok href →
      itemIDMatch href = some itemID →
      findFirstElementByAttr node "span" "class" "s-item__price" = some priceNode →
      getElementNodeVal priceNode = Except.ok priceText →
      priceMatch priceText = some price →
      findFirstElementByAttr node "div" "class" "s-item__title" = some titleDiv →
      findFirstElementByAttr titleDiv "span" "role" "heading" = some titleSpan →
      getElementNodeVal titleSpan = Except.ok title →
      findFirstElementByAttr node "div" "class" "s-item__subtitle" = some subtitleNode →
      findFirstElementByAttr subtitleNode "span" "class" "SECONDARY_INFO" = none →
      processItemNodeWith w node =
        ⟨Except.error "ERROR::Condition SPAN node not found", [], []⟩) := by
  constructor
  · intro w node itemLink href itemID priceNode priceText price titleDiv titleSpan title
      h1 h2 h3 h4 h5 h6 h7 h8 h9 h10
    unfold processItemNodeWith
    simp only [h1, h2, h3, h4, h5, h6, h7, h8, h9, h10, finishItem]
  · intro w node itemLink href itemID priceNode priceText price titleDiv titleSpan title
      subtitleNode h1 h2 h3 h4 h5 h6 h7 h8 h9 h10 h11
    unfold processItemNodeWith
    simp only [h1, h2, h3, h4, h5, h6, h7, h8, h9, h10, h11]

/-- Witness for C5: both scenarios evaluated on the fixtures (missing
subtitle container, and subtitle container without the inner span). -/
theorem C5_condition_asymmetry_witness :
    processItemNodeWith (fun _ => Except.ok ()) itemNoSub =
      ⟨Except.ok (), [("data/" ++ "123" ++ ".json", ⟨"Nice", "", "15.99", "itm/123?x"⟩)],
        ["WARNING::Condition DIV node not found " ++ "123"]⟩ ∧
    processItemNodeWith (fun _ => Except.ok ()) itemBadSub =
      ⟨Except.error "ERROR::Condition SPAN node not found", [], []⟩ :=
  ⟨C5_condition_asymmetry.1 (fun _ => Except.ok ()) itemNoSub linkB "itm/123?x" "123"
      priceSpanB "$15.99" "15.99" titleDivB
      (HtmlNode.mk .element "span" [⟨"role", "heading"⟩]
        (HtmlNode.mk .text "Nice" [] .nil .nil) .nil) "Nice"
      (by decide) (by decide) (by decide) (by decide) (by decide) (by decide)
      (by decide) (by decide) (by decide) (by decide),
   C5_condition_asymmetry.2 (fun _ => Except.ok ()) itemBadSub linkC "itm/123?x" "123"
      priceSpanC "$15.99" "15.99" titleDivC
      (HtmlNode.mk .element "span" [⟨"role", "heading"⟩]
        (HtmlNode.mk .text "Nice" [] .nil .nil) .nil) "Nice" subC
      (by decide) (by decide) (by decide) (by decide) (by decide) (by decide)
      (by decide) (by decide) (by decide) (by decide) (by decide)⟩

/-- C6 (counterexample).  The claim asserts that a message is emitted when
an item misses a mandatory field.  The source discards the goroutine's
error (the printing code at lines 82-84 is commented out) and
`processItemNode` prints nothing on a mandatory miss: on a page whose only
item has no link anchor, the complete output of the iteration is the single
`Found 1 items` line. -/
theorem C6_counterexample :
    processItemNode badItem = ⟨Except.error "ERROR::Item link node not found", [], []⟩ ∧
      (processItemNode badItem).logs = [] ∧
      (crawlStep env6 "http://u").logs = ["Found 1 items"] := by decide

/-- Case split on an `Except` value through equations. -/
theorem except_split {e' a' : Type} (x : Except e' a') :
    (∃ e, x = Except.error e) ∨ ∃ v, x = Except.ok v := by
  cases x with
  | error e => exact Or.inl ⟨e, rfl⟩
  | ok v => exact Or.inr ⟨v, rfl⟩

/-- C6 (amended).  A mandatory-field miss aborts the item with a
descriptive error, nothing is written and nothing is printed for it (no
message is emitted — the error value is discarded), and the page loop's
outcome is the same whatever the per-item task body does, so per-item
failures never reach sibling items or pagination. -/
theorem C6_item_failure_contained :
    (∀ (w : String → Except String Unit) (node : HtmlNode),
      (extractIdField node = none ∨ extractPriceField node = none ∨
        extractTitleField node = none) →
      ∃ e, processItemNodeWith w node = ⟨Except.error e, [], []⟩ ∧ e ≠ "") ∧
    (∀ (m : Except String Unit) (proc1 proc2 : HtmlNode → ProcResult)
        (fetchParse : String → Except String HtmlNode) (url : String),
      (crawlStepWith m proc1 fetchParse url).outcome =
        (crawlStepWith m proc2 fetchParse url).outcome) := by
  constructor
  · intro w node h
    exact processItemNodeWith_err_of_miss w node h
  · intro m p q f u
    unfold crawlStepWith
    rcases except_split (f u) with ⟨e, hf⟩ | ⟨tree, hf⟩
    · simp only [hf]
    · simp only [hf]
      by_cases hl : (findItemElementsByClass tree "li" "s-item" []).length = 0
      · simp only [if_pos hl]
      · simp only [if_neg hl]
        rcases Option.eq_none_or_eq_some
            (findFirstElementByAttr tree "a" "class" "pagination__next icon-link") with
          hb | ⟨btn, hb⟩
        · simp only [hb]
        · simp only [hb]
          rcases except_split (getElementAttrByName btn "href") with ⟨e, ha⟩ | ⟨href, ha⟩
          · simp only [ha]
          · simp only [ha]

/-- Witness for C6: the containment applied to the fixture item with no
link anchor and to two arbitrary concrete task bodies. -/
theorem C6_item_failure_contained_witness :
    (∃ e, processItemNodeWith (fun _ => Except.ok ()) badItem =
      ⟨Except.error e, [], []⟩ ∧ e ≠ "") ∧
    (crawlStepWith (Except.ok ()) processItemNode env6 "http://u").outcome =
      (crawlStepWith (Except.ok ()) (fun _ => ⟨Except.ok (), [], ["extra"]⟩) env6
        "http://u").outcome :=
  ⟨C6_item_failure_contained.1 (fun _ => Except.ok ()) badItem (Or.inl (by decide)),
   C6_item_failure_contained.2 (Except.ok ()) processItemNode
     (fun _ => ⟨Except.ok (), [], ["extra"]⟩) env6 "http://u"⟩

/-- C7.  An empty item collection on a fetched page is fatal: the iteration
ends in `os.Exit(1)` after printing `Failed to get items`, and however many
further iterations one allows, no URL beyond the current one is fetched. -/
theorem C7_empty_collection_fatal (fetchParse : String → Except String HtmlNode)
    (url : String) (tree : HtmlNode)
    (hfetch : fetchParse url = Except.ok tree)
    (hempty : findItemElementsByClass tree "li" "s-item" [] = []) :
    (crawlStep fetchParse url).outcome = StepOutcome.fatalExit "Failed to get items" 1 ∧
      ∀ n, crawlFetchList fetchParse (n + 1) url = [url] := by
  have hstep : (crawlStep fetchParse url).outcome =
      StepOutcome.fatalExit "Failed to get items" 1 := by
    unfold crawlStep crawlStepWith
    simp [hfetch, hempty]
  exact ⟨hstep, fun n => by simp only [crawlFetchList, hstep]⟩

/-- Witness for C7: the fatal outcome on the fixture page with no items. -/
theorem C7_empty_collection_fatal_witness :
    (crawlStep env7 "http://x").outcome = StepOutcome.fatalExit "Failed to get items" 1 ∧
      crawlFetchList env7 5 "http://x" = ["http://x"] :=
  ⟨(C7_empty_collection_fatal env7 "http://x" page7 (by decide) (by decide)).1,
   (C7_empty_collection_fatal env7 "http://x" page7 (by decide) (by decide)).2 4⟩

/-- C8.  On parser-shaped markup trees (non-element strict descendants are
leaves, as `html.Parse` guarantees) the first-match search returns exactly
the first node of the subtree's document pre-order that is an element of
the requested tag with an attribute of the requested name containing the
requested value — the node itself checked before its descendants — and the
total `Option` result is `none` when no node qualifies, never a crash. -/
theorem C8_findFirst_characterization (elementType attrName attrValue : String)
    (node : HtmlNode) (hwf : wfRoot node = true) :
    findFirstElementByAttr node elementType attrName attrValue =
      (preorder node).find? (specAttrMatches elementType attrName attrValue) :=
  findFirstElementByAttr_eq elementType attrName attrValue node hwf

/-- Witness for C8: the characterisation evaluated on the complete item
fixture for the price search, and on a search with no qualifying node. -/
theorem C8_findFirst_characterization_witness :
    findFirstElementByAttr itemA "span" "class" "s-item__price" =
      (preorder itemA).find? (specAttrMatches "span" "class" "s-item__price") ∧
    findFirstElementByAttr itemA "table" "class" "absent-thing" =
      (preorder itemA).find? (specAttrMatches "table" "class" "absent-thing") :=
  ⟨C8_findFirst_characterization "span" "class" "s-item__price" itemA (by decide),
   C8_findFirst_characterization "table" "class" "absent-thing" itemA (by decide)⟩

/-- C9 (counterexample).  The claim reads the title recipe as requiring a
span with `role` EQUAL to `heading` and makes its absence a per-item
failure.  On the fixture whose title container only holds a
`role="subheading"` span, no node has `role` equal to `heading` (first
conjunct), yet extraction succeeds and takes that span's text as the title,
because the source matches the `role` value by substring containment. -/
theorem C9_counterexample :
    (preorder titleDivD).all (fun n => !hasExactRoleHeading n) = true ∧
      processItemNode itemSubheading =
        ⟨Except.ok (), [("data/123.json", ⟨"WRONG", "", "15.99", "itm/123?x"⟩)],
          ["WARNING::Condition DIV node not found 123"]⟩ := by decide

/-- C9 (amended).  The title is the raw direct text of the first `<span>`
whose `role` attribute CONTAINS `heading`, inside the first `<div>` whose
class contains `s-item__title`; absence of either node (under the
containment reading) is a per-item failure with a descriptive error. -/
theorem C9_title_extraction :
    (∀ (w : String → Except String Unit) (node : HtmlNode),
      extractTitleField node = none →
      ∃ e, processItemNodeWith w node = ⟨Except.error e, [], []⟩ ∧ e ≠ "") ∧
    (∀ (w : String → Except String Unit) (node : HtmlNode) (path : String) (info : ItemInfo),
      (path, info) ∈ (processItemNodeWith w node).writes →
      ∃ titleDiv titleSpan,
        findFirstElementByAttr node "div" "class" "s-item__title" = some titleDiv ∧
        findFirstElementByAttr titleDiv "span" "role" "heading" = some titleSpan ∧
        getElementNodeVal titleSpan = Except.ok info.title) := by
  constructor
  · intro w node h
    exact processItemNodeWith_err_of_miss w node (Or.inr (Or.inr h))
  · intro w node path info h
    obtain ⟨iL, hrefv, iIDv, pN, pT, tD, tS, e1, e2, e3, e4, e5, e6, e7, e8, e9,
      e10, e11, e12⟩ := processItemNodeWith_writes_spec w node path info h
    exact ⟨tD, tS, e7, e8, e9⟩

/-- Witness for C9: the title recipe on the complete fixture, and the
failure on an item with no title container. -/
theorem C9_title_extraction_witness :
    (∃ e, processItemNodeWith (fun _ => Except.ok ()) badItem =
      ⟨Except.error e, [], []⟩ ∧ e ≠ "") ∧
    (∃ titleDiv titleSpan,
      findFirstElementByAttr itemA "div" "class" "s-item__title" = some titleDiv ∧
      findFirstElementByAttr titleDiv "span" "role" "heading" = some titleSpan ∧
      getElementNodeVal titleSpan =
        Except.ok (ItemInfo.mk "Nice" "Brand New" "15.99" "itm/123?x").title) :=
  ⟨C9_title_extraction.1 (fun _ => Except.ok ()) badItem (by decide),
   C9_title_extraction.2 (fun _ => Except.ok ()) itemA "data/123.json"
     (ItemInfo.mk "Nice" "Brand New" "15.99" "itm/123?x") (by decide)⟩

/-- C10.  Persistence can silently fail: the item pipeline's observable
result — returned value, attempted write, printed lines — is identical
whatever value `os.WriteFile` returns, and the whole page iteration is
identical whatever value `os.Mkdir` returns; success is reported for an
item regardless of whether its file could actually be written. -/
theorem C10_persistence_errors_ignored :
    (∀ (w1 w2 : String → Except String Unit) (node : HtmlNode),
      processItemNodeWith w1 node = processItemNodeWith w2 node) ∧
    (∀ (m1 m2 : Except String Unit) (proc : HtmlNode → ProcResult)
        (fetchParse : String → Except String HtmlNode) (url : String),
      crawlStepWith m1 proc fetchParse url = crawlStepWith m2 proc fetchParse url) := by
  constructor
  · intro w1 w2 node
    rfl
  · intro m1 m2 proc fetchParse url
    rfl
